import Mathlib

/-!
Verification of the streaming/batch layer of `apache_beam/io/gcp/gcsio.py`.

The Python module is embedded shallowly:

* network collaborators (`self.client.objects.*`, `BatchApiRequest.Execute`,
  `transfer.Download`, `transfer.Upload`) are environments passed in as
  functions returning structured outcomes;
* exceptions become an explicit `Exn` sum / `Except` results;
* stateful objects (`GcsDownloader`, `GcsUploader`, the copy-batch loop,
  the bucket-to-project-number cache) become explicit state records with
  functions from state to state;
* the path type is kept generic (`α` with decidable equality) where the code
  only ever compares and stores the paths.

Line numbers in doc comments refer to `sdks/python/apache_beam/io/gcp/gcsio.py`.
-/

/-- Size of each partial-file read operation from GCS (gcsio.py line 91). -/
def DEFAULT_READ_BUFFER_SIZE : Nat := 16 * 1024 * 1024

/-- Size of the chunks used when writing to GCS (gcsio.py line 98). -/
def WRITE_CHUNK_SIZE : Nat := 8 * 1024 * 1024

/-- Maximum number of operations permitted in `GcsIo.copy_batch()` and
`GcsIo.delete_batch()` (gcsio.py line 102). -/
def MAX_BATCH_OPERATION_SIZE : Nat := 100

/-- Exceptions observable from the embedded operations, over a path type `α`.
`http code` embeds `apitools HttpError` with its status code; `gcsIOError src`
embeds the `GcsIOError(errno.ENOENT, 'Source file not found: ...')` value built
at gcsio.py lines 433-434 (it records which source path was reported missing);
`keyError` embeds a Python `KeyError`; `other` is any other exception object. -/
inductive Exn (α : Type) where
  | http (status_code : Nat)
  | gcsIOError (src : α)
  | keyError
  | other (code : Nat)
deriving DecidableEq

/-- First-match association lookup.  This models access to the Python dicts
used in gcsio.py (`pair_to_status`, `bucket_to_project_number`): every key is
inserted at most once in the modelled code paths, so first-match lookup agrees
with dict lookup. -/
def assocGet {γ : Type} {δ : Type} [DecidableEq γ] : List (γ × δ) → γ → Option δ
  | [], _ => none
  | (k', v) :: rest, k => if k = k' then some v else assocGet rest k

/-- An entry present in the prefix of an association list is still found after
appending more entries on the right. -/
theorem assocGet_append_left {γ : Type} {δ : Type} [DecidableEq γ]
    (l l2 : List (γ × δ)) (k : γ) (v : δ) (h : assocGet l k = some v) :
    assocGet (l ++ l2) k = some v := by
  induction l with
  | nil => simp [assocGet] at h
  | cons hd tl ih =>
    obtain ⟨k', v'⟩ := hd
    by_cases hk : k = k'
    · simp [assocGet, hk] at h ⊢
      exact h
    · simp [assocGet, hk] at h ⊢
      exact ih h

/-- Lookup past an absent prefix continues in the appended suffix. -/
theorem assocGet_append_right {γ : Type} {δ : Type} [DecidableEq γ]
    (l l2 : List (γ × δ)) (k : γ) (h : assocGet l k = none) :
    assocGet (l ++ l2) k = assocGet l2 k := by
  induction l with
  | nil => simp
  | cons hd tl ih =>
    obtain ⟨k', v'⟩ := hd
    by_cases hk : k = k'
    · simp [assocGet, hk] at h
    · simp [assocGet, hk] at h ⊢
      exact ih h

/-- Looking up a member key in a tabulated association list finds its value. -/
theorem assocGet_map_self {γ : Type} {δ : Type} [DecidableEq γ]
    (l : List γ) (f : γ → δ) (k : γ) (hk : k ∈ l) :
    assocGet (l.map fun q => (q, f q)) k = some (f k) := by
  induction l with
  | nil => cases hk
  | cons hd tl ih =>
    by_cases h : k = hd
    · subst h
      simp [assocGet]
    · rcases List.mem_cons.mp hk with h' | h'
      · exact absurd h' h
      · simp only [List.map_cons, assocGet, if_neg h]
        exact ih h'

/-- `GcsIo.delete` (gcsio.py lines 265-282).  `env path` is the outcome of the
single `self.client.objects.Delete(request)` call for that path (`none` means
it returned without raising).  The code catches `HttpError` and converts
status 404 into a silent return; every other exception propagates. -/
def GcsIo.delete {α : Type} (env : α → Option (Exn α)) (path : α) :
    Except (Exn α) Unit :=
  match env path with
  | none => Except.ok ()
  | some (Exn.http code) =>
      if code = 404 then Except.ok () else Except.error (Exn.http code)
  | some e => Except.error e

/-- Per-path outcome recorded by `GcsIo.delete_batch` (gcsio.py lines 316-324):
`exception = api_call.exception` when `api_call.is_error`, reset to `None` when
the exception is an `HttpError` with status 404. -/
def GcsIo.deleteBatchOutcome {α : Type} (env : α → Option (Exn α)) (path : α) :
    Option (Exn α) :=
  match env path with
  | none => none
  | some (Exn.http code) => if code = 404 then none else some (Exn.http code)
  | some e => some e

/-- The chunking loop of `GcsIo.delete_batch` (gcsio.py lines 300-325): repeat
taking a chunk of at most `MAX_BATCH_OPERATION_SIZE` paths, execute the chunk
as one batch request, and append one `(path, exception)` tuple per path of the
chunk in chunk order. -/
def GcsIo.deleteBatchLoop {α : Type} (env : α → Option (Exn α)) :
    List α → List (α × Option (Exn α))
  | [] => []
  | p :: rest =>
      ((p :: rest).take MAX_BATCH_OPERATION_SIZE).map
          (fun q => (q, GcsIo.deleteBatchOutcome env q)) ++
        GcsIo.deleteBatchLoop env ((p :: rest).drop MAX_BATCH_OPERATION_SIZE)
termination_by l => l.length
decreasing_by
  simp only [List.length_drop, List.length_cons, MAX_BATCH_OPERATION_SIZE]
  omega

/-- `GcsIo.delete_batch` (gcsio.py lines 286-325). -/
def GcsIo.delete_batch {α : Type} (env : α → Option (Exn α)) (paths : List α) :
    List (α × Option (Exn α)) :=
  if paths.isEmpty then [] else GcsIo.deleteBatchLoop env paths

/-- The successive batch rounds issued by `GcsIo.delete_batch`: each round is
the list of paths whose delete sub-requests are added to one
`BatchApiRequest` and executed as a single network call. -/
def GcsIo.deleteBatchRounds {α : Type} : List α → List (List α)
  | [] => []
  | p :: rest =>
      (p :: rest).take MAX_BATCH_OPERATION_SIZE ::
        GcsIo.deleteBatchRounds ((p :: rest).drop MAX_BATCH_OPERATION_SIZE)
termination_by l => l.length
decreasing_by
  simp only [List.length_drop, List.length_cons, MAX_BATCH_OPERATION_SIZE]
  omega

/-- The delete-batch loop records exactly one outcome per input path, in input
order. -/
theorem GcsIo.deleteBatchLoop_eq_map {α : Type} (env : α → Option (Exn α))
    (paths : List α) :
    GcsIo.deleteBatchLoop env paths =
      paths.map fun p => (p, GcsIo.deleteBatchOutcome env p) := by
  induction paths using GcsIo.deleteBatchLoop.induct env with
  | case1 => simp [GcsIo.deleteBatchLoop]
  | case2 p rest ih =>
    rw [GcsIo.deleteBatchLoop, ih, ← List.map_append, List.take_append_drop]

/-- The concatenation of the delete-batch rounds is the input path list. -/
theorem GcsIo.deleteBatchRounds_flatten {α : Type} (paths : List α) :
    (GcsIo.deleteBatchRounds paths).flatten = paths := by
  induction paths using GcsIo.deleteBatchRounds.induct with
  | case1 => simp [GcsIo.deleteBatchRounds]
  | case2 p rest ih =>
    rw [GcsIo.deleteBatchRounds, List.flatten_cons, ih, List.take_append_drop]

/-- Every delete-batch round contains at most `MAX_BATCH_OPERATION_SIZE`
paths. -/
theorem GcsIo.deleteBatchRounds_size {α : Type} (paths : List α) :
    ∀ r ∈ GcsIo.deleteBatchRounds paths, r.length ≤ MAX_BATCH_OPERATION_SIZE := by
  induction paths using GcsIo.deleteBatchRounds.induct with
  | case1 => simp [GcsIo.deleteBatchRounds]
  | case2 p rest ih =>
    intro r hr
    rw [GcsIo.deleteBatchRounds] at hr
    rcases List.mem_cons.mp hr with h | h
    · subst h
      exact List.length_take_le _ _
    · exact ih r h

/-- C4: for every input list of paths, including lists longer than the maximum
batch size of 100, `delete_batch` returns exactly one `(path, outcome)` tuple
per input path, processed across batch rounds of at most 100 paths each whose
concatenation is the input, and the order of the output equals the order of
the input. -/
theorem delete_batch_one_outcome_per_path_in_order {α : Type}
    (env : α → Option (Exn α)) (paths : List α) :
    GcsIo.delete_batch env paths =
        (paths.map fun p => (p, GcsIo.deleteBatchOutcome env p))
      ∧ (GcsIo.delete_batch env paths).map Prod.fst = paths
      ∧ (GcsIo.deleteBatchRounds paths).flatten = paths
      ∧ ∀ r ∈ GcsIo.deleteBatchRounds paths,
          r.length ≤ MAX_BATCH_OPERATION_SIZE := by
  have hmain : GcsIo.delete_batch env paths =
      paths.map fun p => (p, GcsIo.deleteBatchOutcome env p) := by
    cases paths with
    | nil => simp [GcsIo.delete_batch]
    | cons p rest =>
      have h := GcsIo.deleteBatchLoop_eq_map env (p :: rest)
      simpa [GcsIo.delete_batch] using h
  refine ⟨hmain, ?_, GcsIo.deleteBatchRounds_flatten paths,
    GcsIo.deleteBatchRounds_size paths⟩
  rw [hmain, List.map_map]
  have hcomp : (Prod.fst ∘ fun p : α => (p, GcsIo.deleteBatchOutcome env p)) = id := rfl
  rw [hcomp, List.map_id]

/-- Witness for C4 at a concrete input of 150 paths: the theorem instantiated,
with all components evaluated on that input. -/
theorem delete_batch_one_outcome_per_path_in_order_witness :
    GcsIo.delete_batch (fun _ => (none : Option (Exn Nat))) (List.range 150) =
        ((List.range 150).map fun p => (p, none))
      ∧ (GcsIo.delete_batch (fun _ => (none : Option (Exn Nat)))
          (List.range 150)).map Prod.fst = List.range 150
      ∧ (GcsIo.deleteBatchRounds (List.range 150)).flatten = List.range 150
      ∧ ∀ r ∈ GcsIo.deleteBatchRounds (List.range 150),
          r.length ≤ MAX_BATCH_OPERATION_SIZE := by
  have h := delete_batch_one_outcome_per_path_in_order
    (fun _ => (none : Option (Exn Nat))) (List.range 150)
  simpa [GcsIo.deleteBatchOutcome] using h

/-- C8: a delete whose remote call reports HTTP 404 succeeds (no exception,
and a `none` outcome in `delete_batch`); any other error is propagated by
`delete` and recorded as the path's outcome by `delete_batch`. -/
theorem delete_not_found_is_success {α : Type}
    (env : α → Option (Exn α)) (path : α) :
    (env path = some (Exn.http 404) →
        GcsIo.delete env path = Except.ok ()
      ∧ GcsIo.deleteBatchOutcome env path = none)
  ∧ (∀ e, env path = some e → e ≠ Exn.http 404 →
        GcsIo.delete env path = Except.error e
      ∧ GcsIo.deleteBatchOutcome env path = some e) := by
  constructor
  · intro h
    constructor
    · simp [GcsIo.delete, h]
    · simp [GcsIo.deleteBatchOutcome, h]
  · intro e he hne
    cases e with
    | http code =>
      have hcode : code ≠ 404 := by
        intro hc
        exact hne (by rw [hc])
      constructor
      · simp [GcsIo.delete, he, hcode]
      · simp [GcsIo.deleteBatchOutcome, he, hcode]
    | gcsIOError src =>
      exact ⟨by simp [GcsIo.delete, he], by simp [GcsIo.deleteBatchOutcome, he]⟩
    | keyError =>
      exact ⟨by simp [GcsIo.delete, he], by simp [GcsIo.deleteBatchOutcome, he]⟩
    | other code =>
      exact ⟨by simp [GcsIo.delete, he], by simp [GcsIo.deleteBatchOutcome, he]⟩

/-- A concrete delete environment for the C8 witness: path 1 reports HTTP 404,
every other path reports HTTP 500. -/
def deleteEnvEx : Nat → Option (Exn Nat) := fun p =>
  if p = 1 then some (Exn.http 404) else some (Exn.http 500)

/-- Witness for C8: one path whose delete reports 404 (treated as success) and
one whose delete reports 500 (propagated / recorded). -/
theorem delete_not_found_is_success_witness :
    (deleteEnvEx 1 = some (Exn.http 404)
      ∧ GcsIo.delete deleteEnvEx 1 = Except.ok ()
      ∧ GcsIo.deleteBatchOutcome deleteEnvEx 1 = none)
  ∧ (deleteEnvEx 2 = some (Exn.http 500)
      ∧ (Exn.http 500 : Exn Nat) ≠ Exn.http 404
      ∧ GcsIo.delete deleteEnvEx 2 = Except.error (Exn.http 500)
      ∧ GcsIo.deleteBatchOutcome deleteEnvEx 2 = some (Exn.http 500)) := by
  have h1 := (delete_not_found_is_success deleteEnvEx 1).1 (by decide)
  have h2 := (delete_not_found_is_success deleteEnvEx 2).2
    (Exn.http 500) (by decide) (by decide)
  exact ⟨⟨by decide, h1.1, h1.2⟩, ⟨by decide, by decide, h2.1, h2.2⟩⟩

/-- A `storage.RewriteResponse` as observed by `GcsIo.copy` (gcsio.py lines
359-370): the fields the loop reads. -/
structure RewriteResponse where
  done : Bool
  rewriteToken : Option String
  totalBytesRewritten : Nat
  objectSize : Nat
deriving DecidableEq

/-- The polling loop of `GcsIo.copy` (gcsio.py lines 350-372).  `responses` is
the sequence of `storage.RewriteResponse` values the remote returns to the
successive `self.client.objects.Rewrite(request)` calls; `tok` is the
`rewriteToken` field currently stored in the mutable request (`none` for the
freshly built request).  The result is the sequence of `rewriteToken` values
carried by the requests actually issued: one request is issued, its response
consumed, and while the response is not done the returned token is stored into
the request and the request reissued. -/
def GcsIo.copyRequestTokens : List RewriteResponse → Option String → List (Option String)
  | [], _ => []
  | r :: rest, tok =>
      tok :: (if r.done then [] else GcsIo.copyRequestTokens rest r.rewriteToken)

/-- `GcsIo.copy` (gcsio.py lines 329-372), observed through the continuation
tokens of the rewrite requests it issues.  The request built at lines 352-358
carries no `rewriteToken`. -/
def GcsIo.copy (responses : List RewriteResponse) : List (Option String) :=
  GcsIo.copyRequestTokens responses none

/-- Helper for C3, generalised over the token stored in the request when the
loop starts: as long as every response before the last reports not-done and
the last reports done, the loop issues one request per response and each
request after the first carries the token of the immediately preceding
response. -/
theorem GcsIo.copyRequestTokens_progress (rs : List RewriteResponse)
    (rdone : RewriteResponse) (hdone : rdone.done = true)
    (hprog : ∀ r ∈ rs, r.done = false) :
    ∀ tok, GcsIo.copyRequestTokens (rs ++ [rdone]) tok =
      tok :: rs.map (fun r => r.rewriteToken) := by
  induction rs with
  | nil =>
    intro tok
    simp [GcsIo.copyRequestTokens, hdone]
  | cons r rest ih =>
    intro tok
    have hr : r.done = false := hprog r (List.mem_cons_self r rest)
    have hrest : ∀ x ∈ rest, x.done = false := fun x hx =>
      hprog x (List.mem_cons_of_mem r hx)
    have hstep : GcsIo.copyRequestTokens ((r :: rest) ++ [rdone]) tok
        = tok :: GcsIo.copyRequestTokens (rest ++ [rdone]) r.rewriteToken := by
      simp [GcsIo.copyRequestTokens, hr]
    rw [hstep, ih hrest r.rewriteToken, List.map_cons]

/-- C3: for every sequence of rewrite responses ending in `done = true` (all
earlier ones reporting not-done), `copy` issues exactly one request per
response; the first request carries no continuation token and each subsequent
request carries exactly the `rewriteToken` of the immediately preceding
response, stopping at the first done response. -/
theorem copy_polls_token_until_done (rs : List RewriteResponse)
    (rdone : RewriteResponse) (hdone : rdone.done = true)
    (hprog : ∀ r ∈ rs, r.done = false) :
    GcsIo.copy (rs ++ [rdone]) = none :: rs.map (fun r => r.rewriteToken)
  ∧ (GcsIo.copy (rs ++ [rdone])).length = (rs ++ [rdone]).length := by
  have h := GcsIo.copyRequestTokens_progress rs rdone hdone hprog none
  refine ⟨h, ?_⟩
  rw [GcsIo.copy, h]
  simp

/-- The two not-done responses of the spec's C3 example, carrying tokens T1
and T2. -/
def rewriteRespsEx : List RewriteResponse :=
  [⟨false, some "T1", 0, 10⟩, ⟨false, some "T2", 5, 10⟩]

/-- The final done response of the spec's C3 example. -/
def rewriteDoneEx : RewriteResponse := ⟨true, none, 10, 10⟩

/-- Witness for C3 at the spec's example: responses `(done=false, token=T1)`,
`(done=false, token=T2)`, `(done=true)` produce exactly three requests whose
tokens are none, T1, T2. -/
theorem copy_polls_token_until_done_witness :
    GcsIo.copy (rewriteRespsEx ++ [rewriteDoneEx]) = [none, some "T1", some "T2"]
  ∧ (GcsIo.copy (rewriteRespsEx ++ [rewriteDoneEx])).length =
      (rewriteRespsEx ++ [rewriteDoneEx]).length := by
  have h := copy_polls_token_until_done rewriteRespsEx rewriteDoneEx
    (by decide) (by decide)
  exact ⟨by rw [h.1]; rfl, h.2⟩

/-- The result of one rewrite sub-request inside a `copy_batch` batched call
(gcsio.py lines 424-446): either `api_call.is_error` with the given exception,
or a response with `done = False` carrying a continuation token, or a response
with `done = True`. -/
inductive RewriteSubResult (α : Type) where
  | error (e : Exn α)
  | progress (rewriteToken : Option String)
  | done
deriving DecidableEq

/-- Translation applied by `copy_batch` to an error sub-response (gcsio.py
lines 430-435): an `HttpError` with status 404 becomes the domain-specific
`GcsIOError` naming the missing source; every other exception is recorded
unchanged. -/
def GcsIo.translateCopyError {α : Type} (src : α) (e : Exn α) : Exn α :=
  match e with
  | Exn.http code => if code = 404 then Exn.gcsIOError src else Exn.http code
  | e => e

/-- State of the `copy_batch` loop: the `rewriteToken` currently stored in each
pair's mutable `StorageObjectsRewriteRequest` (gcsio.py lines 400-411, updated
at line 443), and `pair_to_status`, the outcomes recorded so far (line 412),
as an insertion-ordered association list. -/
structure CopyBatchState (α : Type) where
  rewriteToken : α × α → Option String
  pair_to_status : List ((α × α) × Option (Exn α))

/-- Processing of one `(pair, api_call)` result inside a round (gcsio.py lines
424-446): an error records a (possibly translated) exception outcome; a
not-done response stores the returned continuation token into the pair's
request and keeps the pair pending; a done response records a success
outcome. -/
def GcsIo.processRewriteResult {α : Type} [DecidableEq α] (st : CopyBatchState α)
    (p : α × α) (res : RewriteSubResult α) : CopyBatchState α :=
  match res with
  | RewriteSubResult.error e =>
      { st with pair_to_status :=
          st.pair_to_status ++ [(p, some (GcsIo.translateCopyError p.1 e))] }
  | RewriteSubResult.progress tok =>
      { st with rewriteToken := fun q => if q = p then tok else st.rewriteToken q }
  | RewriteSubResult.done =>
      { st with pair_to_status := st.pair_to_status ++ [(p, none)] }

/-- The round loop of `copy_batch` (gcsio.py lines 413-446).  `env p k` is the
sub-response the batched call of round `k` yields for pair `p`.  Each round
collects every pair without a recorded outcome (the code computes
`list(set(src_dest_pairs) - set(pair_to_status))`; the set difference is kept
here in input order), issues one batched call containing one rewrite
sub-request per pending pair with its currently stored token, and processes
every sub-response.  The loop of the code runs until no pair is pending;
`fuel` bounds the number of rounds modelled, `none` standing for a run that
still had pending pairs after `fuel` rounds.  The first component is the trace
of issued rounds, each round listing the `(pair, rewriteToken)` sub-requests
of its single batched network call. -/
def GcsIo.copyBatchLoop {α : Type} [DecidableEq α]
    (env : α × α → Nat → RewriteSubResult α) (pairs : List (α × α)) :
    Nat → Nat → CopyBatchState α →
      List (List ((α × α) × Option String)) × Option (List ((α × α) × Option (Exn α)))
  | fuel, round, st =>
    let pending := pairs.filter fun p => (assocGet st.pair_to_status p).isNone
    if pending.isEmpty then ([], some st.pair_to_status)
    else
      match fuel with
      | 0 => ([], none)
      | fuel' + 1 =>
        let batch := pending.map fun p => (p, st.rewriteToken p)
        let st' := pending.foldl
          (fun s p => GcsIo.processRewriteResult s p (env p round)) st
        let r := GcsIo.copyBatchLoop env pairs fuel' (round + 1) st'
        (batch :: r.1, r.2)

/-- The initial `copy_batch` state: freshly built requests carry no
`rewriteToken` and `pair_to_status` is empty (gcsio.py lines 400-412). -/
def GcsIo.initCopyBatchState {α : Type} : CopyBatchState α :=
  { rewriteToken := fun _ => none, pair_to_status := [] }

/-- `GcsIo.copy_batch` (gcsio.py lines 376-448): runs the round loop and then
returns one `(src, dest, exception)` triple per input pair, in input order,
reading each pair's outcome from `pair_to_status` (`Exn.keyError` embeds the
`KeyError` a missing entry would raise; the loop never leaves one missing). -/
def GcsIo.copy_batch {α : Type} [DecidableEq α]
    (env : α × α → Nat → RewriteSubResult α) (pairs : List (α × α)) (fuel : Nat) :
    Option (List (α × α × Option (Exn α))) :=
  if pairs.isEmpty then some [] else
    match (GcsIo.copyBatchLoop env pairs fuel 0 GcsIo.initCopyBatchState).2 with
    | none => none
    | some status =>
        some (pairs.map fun p =>
          (p.1, p.2, (assocGet status p).getD (some Exn.keyError)))

/-- The trace of batched rounds issued by `GcsIo.copy_batch`: each element is
the list of `(pair, rewriteToken)` rewrite sub-requests submitted in one
batched network call. -/
def GcsIo.copy_batch_rounds {α : Type} [DecidableEq α]
    (env : α × α → Nat → RewriteSubResult α) (pairs : List (α × α)) (fuel : Nat) :
    List (List ((α × α) × Option String)) :=
  if pairs.isEmpty then [] else
    (GcsIo.copyBatchLoop env pairs fuel 0 GcsIo.initCopyBatchState).1

/-- Outcome recorded for a pair whose round-`round` sub-response resolves it
(error or done); `none` is also returned for a progress response, but the
lemmas using this definition exclude that case. -/
def GcsIo.resolvedOutcome {α : Type} (env : α × α → Nat → RewriteSubResult α)
    (round : Nat) (p : α × α) : Option (Exn α) :=
  match env p round with
  | RewriteSubResult.error e => some (GcsIo.translateCopyError p.1 e)
  | RewriteSubResult.progress _ => none
  | RewriteSubResult.done => none

/-- Processing a round in which every listed pair resolves (no progress
response) appends exactly one status entry per pair, in processing order. -/
theorem GcsIo.foldl_processRewriteResult {α : Type} [DecidableEq α]
    (env : α × α → Nat → RewriteSubResult α) (round : Nat) (l : List (α × α)) :
    ∀ st : CopyBatchState α,
      (∀ p ∈ l, ∀ tok, env p round ≠ RewriteSubResult.progress tok) →
      (l.foldl (fun s p => GcsIo.processRewriteResult s p (env p round)) st).pair_to_status
        = st.pair_to_status ++ (l.map fun p => (p, GcsIo.resolvedOutcome env round p)) := by
  induction l with
  | nil => intro st _; simp
  | cons p tl ih =>
    intro st h
    have hp : ∀ tok, env p round ≠ RewriteSubResult.progress tok :=
      h p (List.mem_cons_self p tl)
    have htl : ∀ q ∈ tl, ∀ tok, env q round ≠ RewriteSubResult.progress tok :=
      fun q hq => h q (List.mem_cons_of_mem p hq)
    simp only [List.foldl_cons]
    rw [ih _ htl]
    cases henv : env p round with
    | error e =>
      simp [GcsIo.processRewriteResult, henv, GcsIo.resolvedOutcome]
    | progress tok => exact absurd henv (hp tok)
    | done =>
      simp [GcsIo.processRewriteResult, henv, GcsIo.resolvedOutcome]

/-- If no pair is pending, the copy-batch loop stops and returns the recorded
statuses, issuing no further round. -/
theorem GcsIo.copyBatchLoop_pending_empty {α : Type} [DecidableEq α]
    (env : α × α → Nat → RewriteSubResult α) (pairs : List (α × α))
    (fuel round : Nat) (st : CopyBatchState α)
    (h : pairs.filter (fun p => (assocGet st.pair_to_status p).isNone) = []) :
    GcsIo.copyBatchLoop env pairs fuel round st = ([], some st.pair_to_status) := by
  rw [GcsIo.copyBatchLoop.eq_def]
  simp [h]

/-- One unfolding of the copy-batch loop when some pairs are pending: they are
all submitted as a single batched round, then processed. -/
theorem GcsIo.copyBatchLoop_step {α : Type} [DecidableEq α]
    (env : α × α → Nat → RewriteSubResult α) (pairs : List (α × α))
    (fuel round : Nat) (st : CopyBatchState α) (pend : List (α × α))
    (hpend : pairs.filter (fun p => (assocGet st.pair_to_status p).isNone) = pend)
    (hne : pend.isEmpty = false) :
    GcsIo.copyBatchLoop env pairs (fuel + 1) round st =
      ((pend.map fun p => (p, st.rewriteToken p)) ::
          (GcsIo.copyBatchLoop env pairs fuel (round + 1)
            (pend.foldl (fun s p => GcsIo.processRewriteResult s p (env p round)) st)).1,
        (GcsIo.copyBatchLoop env pairs fuel (round + 1)
          (pend.foldl (fun s p => GcsIo.processRewriteResult s p (env p round)) st)).2) := by
  rw [GcsIo.copyBatchLoop]
  simp [hpend, hne]

/-- With fuel exhausted the loop issues no round. -/
theorem GcsIo.copyBatchLoop_zero_fst {α : Type} [DecidableEq α]
    (env : α × α → Nat → RewriteSubResult α) (pairs : List (α × α))
    (round : Nat) (st : CopyBatchState α) :
    (GcsIo.copyBatchLoop env pairs 0 round st).1 = [] := by
  rw [GcsIo.copyBatchLoop.eq_def]
  by_cases hc : (pairs.filter (fun p => (assocGet st.pair_to_status p).isNone)).isEmpty
  · simp [hc]
  · simp [hc]

/-- Every round the copy-batch loop issues contains at most one sub-request
per input pair: its size is bounded by the length of the input list (the loop
never splits, it batches all pending pairs at once). -/
theorem GcsIo.copyBatchLoop_round_sizes {α : Type} [DecidableEq α]
    (env : α × α → Nat → RewriteSubResult α) (pairs : List (α × α)) :
    ∀ (fuel round : Nat) (st : CopyBatchState α),
      ∀ r ∈ (GcsIo.copyBatchLoop env pairs fuel round st).1,
        r.length ≤ pairs.length := by
  intro fuel
  induction fuel with
  | zero =>
    intro round st r hr
    rw [GcsIo.copyBatchLoop_zero_fst] at hr
    cases hr
  | succ fuel' ih =>
    intro round st r hr
    by_cases hc : pairs.filter (fun p => (assocGet st.pair_to_status p).isNone) = []
    · rw [GcsIo.copyBatchLoop_pending_empty env pairs (fuel' + 1) round st hc] at hr
      cases hr
    · have hne : (pairs.filter
          (fun p => (assocGet st.pair_to_status p).isNone)).isEmpty = false := by
        simp [List.isEmpty_iff, hc]
      rw [GcsIo.copyBatchLoop_step env pairs fuel' round st _ rfl hne] at hr
      rcases List.mem_cons.mp hr with h | h
      · subst h
        rw [List.length_map]
        exact List.length_filter_le _ _
      · exact ih (round + 1) _ r h

set_option maxRecDepth 20000 in
/-- C1 counterexample: 101 pairs, each of whose rewrites completes on its
first sub-request.  `copy_batch` submits all 101 rewrite sub-requests in one
single batched round: its round trace has exactly one round, of size 101,
which exceeds `MAX_BATCH_OPERATION_SIZE = 100`; larger inputs are not split
into groups of at most 100. -/
theorem copy_batch_no_group_splitting_cex :
    (GcsIo.copy_batch_rounds (fun _ _ => RewriteSubResult.done)
        ((List.range 101).map fun i => (i, i)) 2).map List.length = [101]
  ∧ ¬ (∀ r ∈ GcsIo.copy_batch_rounds (fun _ _ => RewriteSubResult.done)
          ((List.range 101).map fun i => (i, i)) 2,
        r.length ≤ MAX_BATCH_OPERATION_SIZE) := by
  constructor
  · decide
  · decide

/-- C1 (amended): `copy_batch` never splits: each round submits every
still-pending pair as one batched call, so a round can be as large as the
input; the documented precondition (gcsio.py lines 384-386) that the input not
exceed `MAX_BATCH_OPERATION_SIZE` is what bounds every round by 100. -/
theorem copy_batch_rounds_bounded_under_documented_cap {α : Type} [DecidableEq α]
    (env : α × α → Nat → RewriteSubResult α) (pairs : List (α × α)) (fuel : Nat)
    (h : pairs.length ≤ MAX_BATCH_OPERATION_SIZE) :
    ∀ r ∈ GcsIo.copy_batch_rounds env pairs fuel,
      r.length ≤ MAX_BATCH_OPERATION_SIZE := by
  intro r hr
  by_cases he : pairs.isEmpty
  · rw [GcsIo.copy_batch_rounds, if_pos he] at hr
    cases hr
  · rw [GcsIo.copy_batch_rounds, if_neg he] at hr
    exact le_trans (GcsIo.copyBatchLoop_round_sizes env pairs fuel 0 _ r hr) h

/-- Witness for amended C1: a two-pair input (within the documented cap) whose
single round satisfies the bound. -/
theorem copy_batch_rounds_bounded_under_documented_cap_witness :
    ([((0 : Nat), (0 : Nat)), (1, 1)].length ≤ MAX_BATCH_OPERATION_SIZE)
  ∧ ∀ r ∈ GcsIo.copy_batch_rounds (fun _ _ => RewriteSubResult.done)
        [((0 : Nat), (0 : Nat)), (1, 1)] 2,
      r.length ≤ MAX_BATCH_OPERATION_SIZE :=
  ⟨by decide,
    copy_batch_rounds_bounded_under_documented_cap
      (fun _ _ => RewriteSubResult.done) [((0 : Nat), (0 : Nat)), (1, 1)] 2
      (by decide)⟩

/-- C5: for every input of pairs in which exactly one pair's source is missing
(its sub-response is an HTTP 404 error) and every other pair's rewrite
completes, `copy_batch` returns exactly one triple per input pair, in input
order: the missing-source pair is mapped to the domain-specific
`GcsIOError` "source not found" outcome naming its source (not the raw
transport error), and every other pair completes with a success (`none`)
outcome, unaffected by the failing one. -/
theorem copy_batch_single_missing_source {α : Type} [DecidableEq α]
    (env : α × α → Nat → RewriteSubResult α) (pairs : List (α × α))
    (bad : α × α) (fuel : Nat)
    (hmem : bad ∈ pairs)
    (hbad : env bad 0 = RewriteSubResult.error (Exn.http 404))
    (hok : ∀ p ∈ pairs, p ≠ bad → env p 0 = RewriteSubResult.done)
    (hfuel : 1 ≤ fuel) :
    GcsIo.copy_batch env pairs fuel =
      some (pairs.map fun p =>
        (p.1, p.2, if p = bad then some (Exn.gcsIOError p.1) else none)) := by
  obtain ⟨f, rfl⟩ : ∃ f, fuel = f + 1 := ⟨fuel - 1, by omega⟩
  have hne : pairs.isEmpty = false := by
    cases pairs with
    | nil => cases hmem
    | cons a l => rfl
  have hnoprog : ∀ p ∈ pairs, ∀ tok, env p 0 ≠ RewriteSubResult.progress tok := by
    intro p hp tok
    by_cases hpb : p = bad
    · rw [hpb, hbad]
      intro hcon
      cases hcon
    · rw [hok p hp hpb]
      intro hcon
      cases hcon
  have hres : ∀ p ∈ pairs, GcsIo.resolvedOutcome env 0 p
      = if p = bad then some (Exn.gcsIOError p.1) else none := by
    intro p hp
    by_cases hpb : p = bad
    · subst hpb
      simp [GcsIo.resolvedOutcome, hbad, GcsIo.translateCopyError]
    · simp [GcsIo.resolvedOutcome, hok p hp hpb, hpb]
  have hpend0 : pairs.filter
      (fun p => (assocGet (GcsIo.initCopyBatchState (α := α)).pair_to_status p).isNone)
      = pairs := List.filter_eq_self.mpr fun a _ => rfl
  have hstatus : (pairs.foldl
      (fun s p => GcsIo.processRewriteResult s p (env p 0))
      (GcsIo.initCopyBatchState (α := α))).pair_to_status
      = pairs.map fun p => (p, GcsIo.resolvedOutcome env 0 p) := by
    rw [GcsIo.foldl_processRewriteResult env 0 pairs _ hnoprog]
    rfl
  have hpend1 : pairs.filter (fun p =>
      (assocGet (pairs.foldl (fun s p => GcsIo.processRewriteResult s p (env p 0))
        (GcsIo.initCopyBatchState (α := α))).pair_to_status p).isNone) = [] := by
    refine List.filter_eq_nil_iff.mpr fun a ha => ?_
    rw [hstatus, assocGet_map_self pairs _ a ha]
    simp
  have hloop := GcsIo.copyBatchLoop_step env pairs f 0
    (GcsIo.initCopyBatchState (α := α)) pairs hpend0 hne
  have hr1 := GcsIo.copyBatchLoop_pending_empty env pairs f 1
    (pairs.foldl (fun s p => GcsIo.processRewriteResult s p (env p 0))
      (GcsIo.initCopyBatchState (α := α))) hpend1
  have h2 : (GcsIo.copyBatchLoop env pairs (f + 1) 0
        (GcsIo.initCopyBatchState (α := α))).2
      = some (pairs.map fun p => (p, GcsIo.resolvedOutcome env 0 p)) := by
    rw [hloop, hr1, hstatus]
  have hfinal : ∀ p ∈ pairs,
      (p.1, p.2, (assocGet (pairs.map fun q => (q, GcsIo.resolvedOutcome env 0 q)) p).getD
          (some Exn.keyError))
        = (p.1, p.2, if p = bad then some (Exn.gcsIOError p.1) else none) := by
    intro p hp
    rw [assocGet_map_self pairs _ p hp]
    rw [Option.getD_some, hres p hp]
  simp only [GcsIo.copy_batch, hne, Bool.false_eq_true, if_false, h2]
  exact congrArg some (List.map_congr_left hfinal)

/-- The copy-batch environment of the C5 witness: the rewrite of pair
`(2, 20)` reports HTTP 404 (missing source); every other rewrite completes on
its first sub-request. -/
def copyEnvEx : Nat × Nat → Nat → RewriteSubResult Nat := fun p _ =>
  if p = (2, 20) then RewriteSubResult.error (Exn.http 404) else RewriteSubResult.done

/-- Witness for C5: three pairs of which exactly the second has a missing
source; `copy_batch` yields one triple per pair in order, with a
source-not-found outcome for the second and success for the others. -/
theorem copy_batch_single_missing_source_witness :
    ((2, 20) ∈ [((1 : Nat), (10 : Nat)), (2, 20), (3, 30)]
      ∧ copyEnvEx (2, 20) 0 = RewriteSubResult.error (Exn.http 404)
      ∧ (∀ p ∈ [((1 : Nat), (10 : Nat)), (2, 20), (3, 30)], p ≠ (2, 20) →
            copyEnvEx p 0 = RewriteSubResult.done)
      ∧ 1 ≤ 1)
  ∧ GcsIo.copy_batch copyEnvEx [((1 : Nat), (10 : Nat)), (2, 20), (3, 30)] 1 =
      some [(1, 10, none), (2, 20, some (Exn.gcsIOError 2)), (3, 30, none)] := by
  have h := copy_batch_single_missing_source copyEnvEx
    [((1 : Nat), (10 : Nat)), (2, 20), (3, 30)] (2, 20) 1
    (by decide) (by decide) (by decide) (by decide)
  refine ⟨⟨by decide, by decide, by decide, by decide⟩, ?_⟩
  rw [h]
  decide

/-- The fields of a `storage.StorageObjectsGetRequest` used by the downloader
(gcsio.py lines 691-693, 710): bucket, object name, and the optional pinned
generation. -/
structure StorageObjectsGetRequest where
  bucket : String
  object : String
  generation : Option Nat
deriving DecidableEq

/-- The object metadata the downloader reads at open (gcsio.py lines 707,
710): `size` and `generation`. -/
structure ObjectMetadata where
  size : Nat
  generation : Nat
deriving DecidableEq

/-- State of a `GcsDownloader` read session: the mutable request descriptor
`self._get_request`, the size captured from the metadata, and the scratch
buffer `self._download_stream` holding the most recently fetched range
(gcsio.py lines 691-718). -/
structure GcsDownloaderState where
  get_request : StorageObjectsGetRequest
  size : Nat
  download_stream : List Nat
deriving DecidableEq

/-- `GcsDownloader.__init__` after a successful metadata fetch (gcsio.py lines
691-718): the request descriptor is built from bucket and object name, the
size is taken from the metadata, and the request's `generation` field is set
once to `metadata.generation` ("Ensure read is from file of the correct
generation", line 709); the scratch buffer starts empty.  The
`objects.Get(self._get_request, download=self._downloader)` call at line 721
only configures the transfer downloader with this request; it moves no
bytes (`auto_transfer=False`). -/
def GcsDownloader.init (bucket object : String) (metadata : ObjectMetadata) :
    GcsDownloaderState :=
  { get_request := { bucket := bucket, object := object,
                     generation := some metadata.generation }
    size := metadata.size
    download_stream := [] }

/-- The external `transfer.Download.GetRange(s, e)` contract (spec section 6,
Ranged GET): it returns exactly the inclusive byte range `[s, e]` of the
snapshot the download was configured for, written into the download stream. -/
def transferGetRange (content : List Nat) (s e : Nat) : List Nat :=
  (content.take (e + 1)).drop s

/-- One ranged fetch as issued on the wire: the request descriptor the
downloader was configured with, and the inclusive byte range. -/
structure RangeFetch where
  request : StorageObjectsGetRequest
  rangeStart : Nat
  rangeEnd : Nat
deriving DecidableEq

/-- `GcsDownloader.get_range(start, end)` (gcsio.py lines 736-740; the Python
parameter `end` is called `stop` here because `end` is a Lean keyword).
`remote g` is the content snapshot of generation `g`.  The method clears the
scratch buffer (`seek(0)`, `truncate(0)`), re-issues
`self._downloader.GetRange(start, end - 1)` against the request descriptor the
downloader was configured with at open, and returns the buffer contents.
The result is the new session state, the returned bytes, and the fetch issued
on the wire. -/
def GcsDownloader.get_range (remote : Nat → List Nat) (st : GcsDownloaderState)
    (start stop : Nat) : GcsDownloaderState × List Nat × RangeFetch :=
  let content := remote ((st.get_request.generation).getD 0)
  let fetched := transferGetRange content start (stop - 1)
  ({ st with download_stream := fetched },
    fetched,
    { request := st.get_request, rangeStart := start, rangeEnd := stop - 1 })

/-- A sequence of `get_range` calls on one read session, returning the final
state and the trace of fetches issued on the wire. -/
def GcsDownloader.runReads (remote : Nat → List Nat) :
    GcsDownloaderState → List (Nat × Nat) → GcsDownloaderState × List RangeFetch
  | st, [] => (st, [])
  | st, (s, e) :: rest =>
    let r := GcsDownloader.get_range remote st s e
    let next := GcsDownloader.runReads remote r.1 rest
    (next.1, r.2.2 :: next.2)

/-- C6: on an open read session whose pinned snapshot matches the metadata
size, every valid half-open range `start < stop ≤ size` yields exactly
`stop - start` bytes; the returned bytes are exactly the scratch buffer
contents (the buffer is overwritten on each call), and a repeated call with
the same range on the resulting session returns the same bytes — the fetch is
re-issued against the same pinned snapshot, nothing else is cached. -/
theorem get_range_length_and_stable (remote : Nat → List Nat)
    (bucket object : String) (metadata : ObjectMetadata) (start stop : Nat)
    (hsize : (remote metadata.generation).length = metadata.size)
    (h1 : start < stop) (h2 : stop ≤ metadata.size) :
    (GcsDownloader.get_range remote
        (GcsDownloader.init bucket object metadata) start stop).2.1.length
      = stop - start
  ∧ (GcsDownloader.get_range remote
        (GcsDownloader.init bucket object metadata) start stop).1.download_stream
      = (GcsDownloader.get_range remote
          (GcsDownloader.init bucket object metadata) start stop).2.1
  ∧ (GcsDownloader.get_range remote
        (GcsDownloader.get_range remote
          (GcsDownloader.init bucket object metadata) start stop).1 start stop).2.1
      = (GcsDownloader.get_range remote
          (GcsDownloader.init bucket object metadata) start stop).2.1 := by
  have hstop : stop - 1 + 1 = stop := by omega
  refine ⟨?_, rfl, rfl⟩
  simp only [GcsDownloader.get_range, GcsDownloader.init, transferGetRange,
    Option.getD_some]
  rw [hstop, List.length_drop, List.length_take, hsize]
  omega

/-- Witness for C6: a three-byte object read on the range `[1, 3)` returns its
two last bytes, stable across a repeated call. -/
theorem get_range_length_and_stable_witness :
    ((fun _ => [10, 20, 30]) (⟨3, 7⟩ : ObjectMetadata).generation).length
        = (⟨3, 7⟩ : ObjectMetadata).size
  ∧ (1 : Nat) < 3 ∧ (3 : Nat) ≤ (⟨3, 7⟩ : ObjectMetadata).size
  ∧ (GcsDownloader.get_range (fun _ => [10, 20, 30])
        (GcsDownloader.init "b" "o" ⟨3, 7⟩) 1 3).2.1.length = 3 - 1
  ∧ (GcsDownloader.get_range (fun _ => [10, 20, 30])
        (GcsDownloader.get_range (fun _ => [10, 20, 30])
          (GcsDownloader.init "b" "o" ⟨3, 7⟩) 1 3).1 1 3).2.1
      = (GcsDownloader.get_range (fun _ => [10, 20, 30])
          (GcsDownloader.init "b" "o" ⟨3, 7⟩) 1 3).2.1 := by
  have h := get_range_length_and_stable (fun _ => [10, 20, 30]) "b" "o"
    ⟨3, 7⟩ 1 3 (by decide) (by decide) (by decide)
  exact ⟨by decide, by decide, by decide, h.1, h.2.2⟩

/-- Helper for C7: `get_range` never modifies the request descriptor, and the
fetch it issues carries exactly the session's request descriptor. -/
theorem GcsDownloader.runReads_request_invariant (remote : Nat → List Nat)
    (calls : List (Nat × Nat)) :
    ∀ st : GcsDownloaderState,
      (GcsDownloader.runReads remote st calls).1.get_request = st.get_request
    ∧ ∀ f ∈ (GcsDownloader.runReads remote st calls).2,
        f.request = st.get_request := by
  induction calls with
  | nil =>
    intro st
    exact ⟨rfl, by intro f hf; cases hf⟩
  | cons c rest ih =>
    intro st
    obtain ⟨s, e⟩ := c
    have hstate : (GcsDownloader.get_range remote st s e).1.get_request
        = st.get_request := rfl
    have hfetch : (GcsDownloader.get_range remote st s e).2.2.request
        = st.get_request := rfl
    have hrec := ih (GcsDownloader.get_range remote st s e).1
    constructor
    · show (GcsDownloader.runReads remote
          (GcsDownloader.get_range remote st s e).1 rest).1.get_request
        = st.get_request
      rw [hrec.1, hstate]
    · intro f hf
      have hf' : f = (GcsDownloader.get_range remote st s e).2.2
          ∨ f ∈ (GcsDownloader.runReads remote
              (GcsDownloader.get_range remote st s e).1 rest).2 := by
        exact List.mem_cons.mp hf
      rcases hf' with h | h
      · rw [h, hfetch]
      · rw [hrec.2 f h, hstate]

/-- C7: the object generation is captured once from the metadata fetch at
open; every subsequent range read of the session carries exactly that
generation in its request, and the session's request descriptor (its
generation field included) is never changed after open, so all reads observe
the single snapshot pinned at open. -/
theorem downloader_generation_pinned_for_session (remote : Nat → List Nat)
    (bucket object : String) (metadata : ObjectMetadata)
    (calls : List (Nat × Nat)) :
    (GcsDownloader.init bucket object metadata).get_request.generation
        = some metadata.generation
  ∧ (GcsDownloader.runReads remote
        (GcsDownloader.init bucket object metadata) calls).1.get_request
      = (GcsDownloader.init bucket object metadata).get_request
  ∧ ∀ f ∈ (GcsDownloader.runReads remote
        (GcsDownloader.init bucket object metadata) calls).2,
      f.request.generation = some metadata.generation := by
  have h := GcsDownloader.runReads_request_invariant remote calls
    (GcsDownloader.init bucket object metadata)
  refine ⟨rfl, h.1, ?_⟩
  intro f hf
  rw [h.2 f hf]
  rfl

/-- Witness for C7: two reads on a session opened at generation 7 both carry
generation 7 and leave the request descriptor unchanged. -/
theorem downloader_generation_pinned_for_session_witness :
    (GcsDownloader.init "b" "o" ⟨3, 7⟩).get_request.generation = some 7
  ∧ (GcsDownloader.runReads (fun _ => [10, 20, 30])
        (GcsDownloader.init "b" "o" ⟨3, 7⟩) [(0, 1), (1, 3)]).1.get_request
      = (GcsDownloader.init "b" "o" ⟨3, 7⟩).get_request
  ∧ ∀ f ∈ (GcsDownloader.runReads (fun _ => [10, 20, 30])
        (GcsDownloader.init "b" "o" ⟨3, 7⟩) [(0, 1), (1, 3)]).2,
      f.request.generation = some 7 :=
  downloader_generation_pinned_for_session (fun _ => [10, 20, 30]) "b" "o"
    ⟨3, 7⟩ [(0, 1), (1, 3)]

/-- State of the background upload thread of a `GcsUploader` write session
(gcsio.py lines 766-770): `last_error`, the single error slot written at most
once by `_start_upload` (line 807), and `terminated`, whether the thread has
exited — on exit the `finally` clause (line 809) closes the child end of the
pipe, so a subsequent `send_bytes` by the caller observes end-of-stream. -/
structure UploadThreadState (ε : Type) where
  last_error : Option ε
  terminated : Bool
deriving DecidableEq

/-- State of a `GcsUploader` write session visible to the caller. -/
structure GcsUploaderState (ε : Type) where
  upload_thread : UploadThreadState ε
deriving DecidableEq

/-- Termination of the background transfer task `_start_upload` (gcsio.py
lines 776-809): `outcome = none` when `objects.Insert` returned, `some e`
when it raised `e`, in which case the exception is recorded in the
`last_error` slot (line 807); either way the `finally` clause closes the
child connection, which this model records as `terminated := true`. -/
def GcsUploader.startUploadExit {ε : Type} (outcome : Option ε)
    (st : GcsUploaderState ε) : GcsUploaderState ε :=
  { st with upload_thread := { last_error := outcome, terminated := true } }

/-- Result of a `put` call as seen by the caller. -/
inductive PutResult (ε : Type) where
  | ok
  | raised (e : ε)
  | eofError
deriving DecidableEq

/-- `GcsUploader.put` (gcsio.py lines 811-817): `self._conn.send_bytes(data)`
succeeds while the background task is alive (its end of the pipe is open);
once the task has terminated the send observes end-of-stream (`EOFError`), and
`put` re-raises the stored `last_error` if one was recorded, otherwise the
`EOFError` itself. -/
def GcsUploader.put {ε : Type} (st : GcsUploaderState ε) : PutResult ε :=
  if st.upload_thread.terminated then
    match st.upload_thread.last_error with
    | some e => PutResult.raised e
    | none => PutResult.eofError
  else PutResult.ok

/-- `GcsUploader.finish` (gcsio.py lines 819-826): closes the caller's end of
the channel, joins the upload thread (so it has terminated when the join
returns), then re-raises `last_error` if set (`some e` is a raised error,
`none` a clean return). -/
def GcsUploader.finish {ε : Type} (st : GcsUploaderState ε) : Option ε :=
  st.upload_thread.last_error

/-- C2: for every write session whose background transfer task terminates with
an error, the error is recorded in the session's single last-error slot, the
very next `put` re-raises exactly that error (the send observes end-of-stream
because the task closed its end of the channel), and `finish` (after joining
the terminated task) re-raises it as well — the error is never silently
dropped.  A `put` before the task terminates succeeds. -/
theorem upload_error_surfaces_on_next_put_or_finish {ε : Type}
    (st : GcsUploaderState ε) (e : ε) :
    (GcsUploader.startUploadExit (some e) st).upload_thread.last_error = some e
  ∧ GcsUploader.put (GcsUploader.startUploadExit (some e) st) = PutResult.raised e
  ∧ GcsUploader.finish (GcsUploader.startUploadExit (some e) st) = some e
  ∧ (st.upload_thread.terminated = false → GcsUploader.put st = PutResult.ok) := by
  refine ⟨rfl, rfl, rfl, ?_⟩
  intro h
  simp [GcsUploader.put, h]

/-- Witness for C2: a live session whose task then dies with error 42; the
next `put` and `finish` both raise 42. -/
theorem upload_error_surfaces_on_next_put_or_finish_witness :
    (GcsUploader.startUploadExit (some 42)
        (⟨⟨none, false⟩⟩ : GcsUploaderState Nat)).upload_thread.last_error = some 42
  ∧ GcsUploader.put (GcsUploader.startUploadExit (some 42)
        (⟨⟨none, false⟩⟩ : GcsUploaderState Nat)) = PutResult.raised 42
  ∧ GcsUploader.finish (GcsUploader.startUploadExit (some 42)
        (⟨⟨none, false⟩⟩ : GcsUploaderState Nat)) = some 42
  ∧ ((⟨⟨none, false⟩⟩ : GcsUploaderState Nat).upload_thread.terminated = false →
      GcsUploader.put (⟨⟨none, false⟩⟩ : GcsUploaderState Nat) = PutResult.ok) :=
  upload_error_surfaces_on_next_put_or_finish (⟨⟨none, false⟩⟩ : GcsUploaderState Nat) 42

/-- A failure of one network attempt: an HTTP error with its status code, or a
timeout. -/
inductive HttpFailure where
  | http (status_code : Nat)
  | timeout
deriving DecidableEq

/-- Modelled from the spec: `retry.retry_on_server_errors_and_timeout_filter`
(`apache_beam/utils/retry.py`, which is not part of the sources here) — the
predicate classifying a failure as retryable: server errors (HTTP 5xx) and
timeouts (spec section 7: "TransientError (server 5xx or timeout —
retryable)"). -/
def retry_on_server_errors_and_timeout_filter : HttpFailure → Bool
  | HttpFailure.http code => 500 ≤ code
  | HttpFailure.timeout => true

/-- Modelled from the spec: `retry.with_exponential_backoff`
(`apache_beam/utils/retry.py`, not part of the sources here) — the RetryPolicy
capability of spec section 2: retry the operation while the predicate
classifies the latest failure as transient, up to an attempt budget, and
surface the last failure once the budget is exhausted; backoff sleep times are
not observable in this embedding.  `op i` is the outcome of the `i`-th attempt
of the wrapped operation. -/
def with_exponential_backoff {ε β : Type} (filter : ε → Bool) :
    Nat → (Nat → Except ε β) → Nat → Except ε β
  | fuel, op, i =>
    match op i with
    | Except.ok b => Except.ok b
    | Except.error e =>
      if filter e then
        match fuel with
        | 0 => Except.error e
        | fuel' + 1 => with_exponential_backoff filter fuel' op (i + 1)
      else Except.error e

/-- `GcsDownloader._get_object_metadata` (gcsio.py lines 727-730): the
metadata fetch is decorated with
`@retry.with_exponential_backoff(retry_filter=retry_on_server_errors_and_timeout_filter)`,
so the raw `objects.Get` is run under the retry wrapper with the
server-error/timeout predicate and the policy's attempt budget `retries`. -/
def GcsDownloader.get_object_metadata (env : Nat → Except HttpFailure ObjectMetadata)
    (retries : Nat) : Except HttpFailure ObjectMetadata :=
  with_exponential_backoff retry_on_server_errors_and_timeout_filter retries env 0

/-- The fetch performed by `GcsDownloader.get_range` (gcsio.py lines 736-740):
the method has no retry decorator; it issues a single
`self._downloader.GetRange` call into the transfer downloader and whatever
that call surfaces (the transfer library's own internal `num_retries=20`
retries happen inside `env 0`, not under the injected wrapper) is the result
of `get_range`. -/
def GcsDownloader.get_range_fetch {β : Type} (env : Nat → Except HttpFailure β) :
    Except HttpFailure β :=
  env 0

/-- What C9 claims `get_range` does (modelled from the spec's words, for
comparison): pass the range fetch through the injected retry wrapper with the
server-error/timeout predicate. -/
def get_range_fetch_spec {β : Type} (env : Nat → Except HttpFailure β)
    (retries : Nat) : Except HttpFailure β :=
  with_exponential_backoff retry_on_server_errors_and_timeout_filter retries env 0

/-- C9 counterexample: an environment whose first attempt fails with a
transient HTTP 503 and whose second attempt succeeds.  The retry wrapper the
spec claims for `get_range` would succeed, but the code's `get_range`
propagates the failure of the single call it issues: the range fetch does not
pass through the injected retry wrapper. -/
theorem get_range_not_retry_wrapped_cex :
    GcsDownloader.get_range_fetch
        (fun i => if i = 0 then Except.error (HttpFailure.http 503)
          else Except.ok [(1 : Nat)])
      = Except.error (HttpFailure.http 503)
  ∧ get_range_fetch_spec
        (fun i => if i = 0 then Except.error (HttpFailure.http 503)
          else Except.ok [(1 : Nat)]) 1
      = Except.ok [(1 : Nat)]
  ∧ retry_on_server_errors_and_timeout_filter (HttpFailure.http 503) = true
  ∧ GcsDownloader.get_range_fetch
        (fun i => if i = 0 then Except.error (HttpFailure.http 503)
          else Except.ok [(1 : Nat)])
      ≠ get_range_fetch_spec
        (fun i => if i = 0 then Except.error (HttpFailure.http 503)
          else Except.ok [(1 : Nat)]) 1 := by
  refine ⟨rfl, rfl, rfl, ?_⟩
  intro h
  cases h

/-- C9 (amended): only the metadata fetch at open passes through the injected
retry wrapper (a transient first failure followed by a success is retried and
succeeds under the server-error/timeout predicate); `get_range` issues its
range fetch as a single call into the transfer downloader, outside the
injected wrapper, so whatever error that call surfaces propagates without an
injected-policy retry. -/
theorem metadata_fetch_retried_range_fetch_not {β : Type}
    (envr : Nat → Except HttpFailure β)
    (envm : Nat → Except HttpFailure ObjectMetadata)
    (e : HttpFailure) (m : ObjectMetadata) (retries : Nat)
    (h0 : envm 0 = Except.error e)
    (hfilter : retry_on_server_errors_and_timeout_filter e = true)
    (h1 : envm 1 = Except.ok m) :
    GcsDownloader.get_range_fetch envr = envr 0
  ∧ GcsDownloader.get_object_metadata envm (retries + 1) = Except.ok m := by
  refine ⟨rfl, ?_⟩
  rw [GcsDownloader.get_object_metadata, with_exponential_backoff, h0]
  simp only [hfilter, if_true]
  rw [with_exponential_backoff, h1]

/-- Witness for amended C9: the metadata fetch recovers from a transient 503
on its first attempt while the range fetch is the bare first call. -/
theorem metadata_fetch_retried_range_fetch_not_witness :
    ((fun i => if i = 0 then Except.error (HttpFailure.http 503)
        else Except.ok (⟨3, 7⟩ : ObjectMetadata)) 0
      = Except.error (HttpFailure.http 503))
  ∧ retry_on_server_errors_and_timeout_filter (HttpFailure.http 503) = true
  ∧ ((fun i => if i = 0 then Except.error (HttpFailure.http 503)
        else Except.ok (⟨3, 7⟩ : ObjectMetadata)) 1
      = Except.ok (⟨3, 7⟩ : ObjectMetadata))
  ∧ GcsDownloader.get_range_fetch
        (fun _ => Except.ok [(1 : Nat)])
      = (fun _ => Except.ok [(1 : Nat)]) 0
  ∧ GcsDownloader.get_object_metadata
        (fun i => if i = 0 then Except.error (HttpFailure.http 503)
          else Except.ok (⟨3, 7⟩ : ObjectMetadata)) (0 + 1)
      = Except.ok (⟨3, 7⟩ : ObjectMetadata) := by
  have h := metadata_fetch_retried_range_fetch_not
    (fun _ => Except.ok [(1 : Nat)])
    (fun i => if i = 0 then Except.error (HttpFailure.http 503)
      else Except.ok (⟨3, 7⟩ : ObjectMetadata))
    (HttpFailure.http 503) ⟨3, 7⟩ 0 rfl rfl rfl
  exact ⟨rfl, rfl, rfl, h.1, h.2⟩

/-- The bucket metadata field read by `get_project_number` (gcsio.py line
187). -/
structure BucketMetadata where
  projectNumber : Nat
deriving DecidableEq

/-- The state `get_project_number` touches: the `bucket_to_project_number`
dict (gcsio.py line 181) and a count of `get_bucket` metadata fetches
performed so far (so that issuing a fetch is observable). -/
structure GcsIOCacheState where
  bucket_to_project_number : List (String × Nat)
  fetches : Nat
deriving DecidableEq

/-- `GcsIo.get_project_number` (gcsio.py lines 183-190).  `get_bucket k b` is
the result of the `k`-th metadata fetch this client performs for bucket `b`
(`none` models `get_bucket` returning `None` after an `HttpError`).  If the
bucket has no cache entry, fetch its metadata; cache `projectNumber` only when
the fetch produced metadata.  Return `bucket_to_project_number.get(bucket,
None)` on the resulting dict. -/
def GcsIo.get_project_number (get_bucket : Nat → String → Option BucketMetadata)
    (st : GcsIOCacheState) (bucket : String) : GcsIOCacheState × Option Nat :=
  match assocGet st.bucket_to_project_number bucket with
  | some v => (st, some v)
  | none =>
    match get_bucket st.fetches bucket with
    | some metadata =>
      let cache' := st.bucket_to_project_number ++ [(bucket, metadata.projectNumber)]
      ({ bucket_to_project_number := cache', fetches := st.fetches + 1 },
        assocGet cache' bucket)
    | none => ({ st with fetches := st.fetches + 1 }, none)

/-- C10: `get_project_number` writes each bucket's cache entry at most once.
A call finding a cached entry returns it with no new metadata fetch and no
state change; any existing entry (for any bucket) survives any call
unchanged; a call missing the cache whose fetch succeeds appends the entry
once and returns the fetched project number (so later calls hit the cache);
a call whose fetch fails caches nothing and returns `none`, leaving the cache
as it was, so a later call for that bucket attempts a new fetch. -/
theorem get_project_number_cache_write_once
    (get_bucket : Nat → String → Option BucketMetadata)
    (st : GcsIOCacheState) (bucket other : String) (v n : Nat) :
    (assocGet st.bucket_to_project_number bucket = some v →
        GcsIo.get_project_number get_bucket st bucket = (st, some v))
  ∧ (assocGet st.bucket_to_project_number other = some v →
        assocGet (GcsIo.get_project_number get_bucket st bucket).1.bucket_to_project_number
            other
          = some v)
  ∧ (assocGet st.bucket_to_project_number bucket = none →
        get_bucket st.fetches bucket = some ⟨n⟩ →
        GcsIo.get_project_number get_bucket st bucket =
          ({ bucket_to_project_number :=
                st.bucket_to_project_number ++ [(bucket, n)],
             fetches := st.fetches + 1 }, some n))
  ∧ (assocGet st.bucket_to_project_number bucket = none →
        get_bucket st.fetches bucket = none →
        GcsIo.get_project_number get_bucket st bucket =
          ({ st with fetches := st.fetches + 1 }, none)) := by
  refine ⟨?_, ?_, ?_, ?_⟩
  · intro h
    simp [GcsIo.get_project_number, h]
  · intro h
    cases hc : assocGet st.bucket_to_project_number bucket with
    | some w => simp [GcsIo.get_project_number, hc, h]
    | none =>
      cases hg : get_bucket st.fetches bucket with
      | some metadata =>
        simp only [GcsIo.get_project_number, hc, hg]
        exact assocGet_append_left _ _ other v h
      | none => simp [GcsIo.get_project_number, hc, hg, h]
  · intro h hg
    simp only [GcsIo.get_project_number, h, hg]
    rw [assocGet_append_right _ _ _ h]
    simp [assocGet]
  · intro h hg
    simp [GcsIo.get_project_number, h, hg]

/-- Witness for C10, exercising the miss-then-hit scenario: starting from an
empty cache, a successful lookup for bucket "b" writes the entry once and
returns project number 7. -/
theorem get_project_number_cache_write_once_witness :
    assocGet (⟨[], 0⟩ : GcsIOCacheState).bucket_to_project_number "b" = none
  ∧ (fun _ _ => some (⟨7⟩ : BucketMetadata)) (⟨[], 0⟩ : GcsIOCacheState).fetches "b"
      = some (⟨7⟩ : BucketMetadata)
  ∧ GcsIo.get_project_number (fun _ _ => some (⟨7⟩ : BucketMetadata)) ⟨[], 0⟩ "b"
      = (⟨[("b", 7)], 1⟩, some 7) := by
  have h := (get_project_number_cache_write_once
    (fun _ _ => some (⟨7⟩ : BucketMetadata)) ⟨[], 0⟩ "b" "b" 0 7).2.2.1 rfl rfl
  exact ⟨rfl, rfl, h⟩
